import Mathlib

/-!
# Verification of `ts-command-line` parameter construction and validation

Shallow embedding of `src/libraries/ts-command-line/src/CommandLineParameter.ts`:
the `CommandLineParameter` / `CommandLineParameterWithArgument` hierarchy, the
five concrete parameter kinds, their construction-time validation (long-name,
short-name and argument-name grammars, choice alternatives and default value)
and the value-injection operation `_setValue`.

TypeScript exceptions are modelled with `Except CError`; `undefined` on
optional fields is modelled with `Option`.  JavaScript string truthiness
(`undefined` and `""` are falsy) is made explicit at each guard.  Character
classes of the source regular expressions are expressed on `Char.toNat`
(ASCII codes: `0`-`9` = 48-57, `A`-`Z` = 65-90, `_` = 95, `a`-`z` = 97-122).
-/

namespace TsCommandLine

/-- Enum `CommandLineParameterKind` from the source. -/
inductive CommandLineParameterKind where
  | Choice
  | Flag
  | Integer
  | String
  | StringList
deriving DecidableEq, Repr

/-- The construction-time failures that `CommandLineParameter.ts` can raise.
Each constructor corresponds to one `throw new Error(...)` site (the payload
records the data interpolated into the message), except `typeError`, which
models the JavaScript `TypeError` raised when a property of `undefined` is
accessed. -/
inductive CError where
  /-- Message "Invalid name: ... The parameter long name must be lower-case and use
  dash delimiters" (the offending long name is carried). -/
  | invalidLongName (name : String)
  /-- Message "Invalid name: ... The parameter short name must be a dash followed by a
  single letter" (the offending short name is carried). -/
  | invalidShortName (name : String)
  /-- Message "The argument name cannot be an empty string. (For the default name,
  specify undefined.)" -/
  | emptyArgumentName
  /-- Message "Invalid name: ... The argument name must be all upper case." -/
  | argumentNameNotUpperCase (name : String)
  /-- Message "The argument name ... contains an invalid character ..." (carries the
  name and the first offending character). -/
  | argumentNameInvalidChar (name : String) (c : Char)
  /-- Message "When defining a choice parameter, the alternatives list must contain at
  least one value." (raised when `alternatives.length <= 1`). -/
  | insufficientAlternatives
  /-- Message "The specified default value ... is not one of the available options: ..."
  (carries the default and the alternatives list). -/
  | defaultValueNotInAlternatives (defaultVal : String) (alternatives : List String)
  /-- A JavaScript `TypeError` (not a deliberate `throw` in the source): raised
  when the code dereferences `undefined`. -/
  | typeError (msg : String)
deriving DecidableEq, Repr

/-! ## Character classes and regular expressions

The source uses three regular expressions:
`_longNameRegExp = /^-(-[a-z0-9]+)+$/`,
`_shortNameRegExp = /^-[a-zA-Z0-9]$/`,
`_invalidArgumentNameRegExp = /[^A-Z_0-9]/`. -/

/-- The character class `[a-z0-9]` of `_longNameRegExp` (codes 97-122, 48-57). -/
def isLowerAlphaNum (c : Char) : Bool :=
  (97 ≤ c.toNat && c.toNat ≤ 122) || (48 ≤ c.toNat && c.toNat ≤ 57)

/-- The character class `[a-zA-Z0-9]` of `_shortNameRegExp`
(codes 97-122, 65-90, 48-57). -/
def isShortNameChar (c : Char) : Bool :=
  (97 ≤ c.toNat && c.toNat ≤ 122) || (65 ≤ c.toNat && c.toNat ≤ 90)
    || (48 ≤ c.toNat && c.toNat ≤ 57)

/-- The complement of the character class `[^A-Z_0-9]` of
`_invalidArgumentNameRegExp`: the characters that are allowed in an argument
name (codes 65-90, 95, 48-57). -/
def isValidArgNameChar (c : Char) : Bool :=
  (65 ≤ c.toNat && c.toNat ≤ 90) || c.toNat = 95 || (48 ≤ c.toNat && c.toNat ≤ 57)

/-- Matcher for the tail `(-[a-z0-9]+)*` resp. `[a-z0-9]+(-[a-z0-9]+)*` of
`_longNameRegExp`, as a scan over the remaining characters.  The flag `accept`
records whether the position is a valid end of input (at least one `[a-z0-9]`
character has been consumed in the current dash-delimited segment);
`accept = false` means the scan still expects the first `[a-z0-9]` character
of a segment. -/
def segsFrom (accept : Bool) : List Char → Bool
  | [] => accept
  | c :: cs =>
    if isLowerAlphaNum c then segsFrom true cs
    else if c = '-' then accept && segsFrom false cs
    else false

/-- Test of `_longNameRegExp = /^-(-[a-z0-9]+)+$/` (anchored): a leading dash,
then one or more groups, each a dash followed by one or more `[a-z0-9]`. -/
def longNameMatches (s : String) : Bool :=
  match s.data with
  | '-' :: '-' :: rest => segsFrom false rest
  | _ => false

/-- Test of `_shortNameRegExp = /^-[a-zA-Z0-9]$/` (anchored): exactly a dash
followed by a single letter or digit. -/
def shortNameMatches (s : String) : Bool :=
  match s.data with
  | ['-', c] => isShortNameChar c
  | _ => false

/-- JavaScript upper-casing of one character, modelled on the ASCII range,
where it is exact: lower-case letters (codes 97-122) are shifted down by 32,
every other ASCII character is a fixed point.  Non-ASCII cased characters,
which JavaScript's Unicode case mappings would change (for example `é` to
`É`), are left fixed by this model.  The model is therefore conservative in
one direction: a character this model changes is also changed by JavaScript,
while a model fixed point is a JavaScript fixed point only within ASCII. -/
def toUpperChar (c : Char) : Char :=
  if 97 ≤ c.toNat && c.toNat ≤ 122 then Char.ofNat (c.toNat - 32) else c

/-- Function `s.toUpperCase()` on a whole string, with `toUpperChar`'s ASCII
restriction: exact on all-ASCII strings; on other strings, a change detected
by this model (an ASCII lower-case letter somewhere in `s`) implies that
JavaScript's `s.toUpperCase()` differs from `s` as well, but not conversely. -/
def toUpperCase (s : String) : String :=
  ⟨s.data.map toUpperChar⟩

/-- Evaluation of `s.match(_invalidArgumentNameRegExp)`: the first character of `s` outside
`[A-Z_0-9]`, if any (`match[0]` of a non-global single-character regex). -/
def firstInvalidArgNameChar (s : String) : Option Char :=
  s.data.find? (fun c => !(isValidArgNameChar c))

/-! ## Definition bundles

`CommandLineDefinition.ts` is not part of the source tree; the interfaces are
modelled from the spec's configuration surface: all kinds take
`parameterLongName` (required), `parameterShortName` (optional) and
`description` (required); argument-bearing kinds add an optional
`argumentName`; Choice adds `alternatives` and an optional `defaultValue`.
`ICommandLineFlagDefinition`, `ICommandLineIntegerDefinition`,
`ICommandLineStringDefinition` and `ICommandLineStringListDefinition` add no
fields beyond their bases and are represented by the base bundles directly. -/

/-- Interface `IBaseCommandLineDefinition`: the definition bundle common to all kinds. -/
structure IBaseCommandLineDefinition where
  parameterLongName : String
  parameterShortName : Option String
  description : String
deriving DecidableEq, Repr

/-- Interface `IBaseCommandLineDefinitionWithArgument`: adds the optional argument name.
`none` models an `undefined` argument name; `some ""` an explicit empty
string. -/
structure IBaseCommandLineDefinitionWithArgument extends IBaseCommandLineDefinition where
  argumentName : Option String
deriving DecidableEq, Repr

/-- Interface `ICommandLineChoiceDefinition`.  `alternatives` and `defaultValue` are the
fields the Choice constructor reads.  A JavaScript caller may also place an
`argumentName` property on the definition object (the spec lists Choice among
the argument-bearing kinds); the constructor in the source never reads it, so
it is carried here to let that be stated. -/
structure ICommandLineChoiceDefinition extends IBaseCommandLineDefinition where
  alternatives : List String
  defaultValue : Option String
  argumentName : Option String
deriving DecidableEq, Repr

/-! ## Parameter objects

Each class of the hierarchy becomes a structure holding the fields its
instances carry after construction.  The private `_value` slot (declared
`_value: T`, initially `undefined`, written only by `_setValue`) is modelled
as `Option JSValue`: `_setValue` takes an untyped (`any`) payload, so the slot
holds a dynamically-typed JavaScript value rather than a per-kind type. -/

/-- The payload shapes the external parser may inject (`any` in the source). -/
inductive JSValue where
  | bool (b : Bool)
  | num (n : Int)
  | str (s : String)
  | strList (l : List String)
deriving DecidableEq, Repr

/-- Class `CommandLineFlagParameter` (extends `CommandLineParameter<boolean>`). -/
structure CommandLineFlagParameter where
  longName : String
  shortName : Option String
  description : String
  value : Option JSValue
deriving DecidableEq, Repr

/-- Class `CommandLineIntegerParameter`
(extends `CommandLineParameterWithArgument<number>`). -/
structure CommandLineIntegerParameter where
  longName : String
  shortName : Option String
  description : String
  argumentName : Option String
  value : Option JSValue
deriving DecidableEq, Repr

/-- Class `CommandLineStringParameter`
(extends `CommandLineParameterWithArgument<string>`). -/
structure CommandLineStringParameter where
  longName : String
  shortName : Option String
  description : String
  argumentName : Option String
  value : Option JSValue
deriving DecidableEq, Repr

/-- Class `CommandLineStringListParameter`
(extends `CommandLineParameterWithArgument<string[]>`). -/
structure CommandLineStringListParameter where
  longName : String
  shortName : Option String
  description : String
  argumentName : Option String
  value : Option JSValue
deriving DecidableEq, Repr

/-- Class `CommandLineChoiceParameter` (extends `CommandLineParameter<string>`
directly — it has no `argumentName` member). -/
structure CommandLineChoiceParameter where
  longName : String
  shortName : Option String
  description : String
  alternatives : List String
  defaultValue : Option String
  value : Option JSValue
deriving DecidableEq, Repr

/-! ### Kind discriminants (the fixed `kind` getters) -/

def CommandLineFlagParameter.kind (_ : CommandLineFlagParameter) :
    CommandLineParameterKind := .Flag

def CommandLineIntegerParameter.kind (_ : CommandLineIntegerParameter) :
    CommandLineParameterKind := .Integer

def CommandLineStringParameter.kind (_ : CommandLineStringParameter) :
    CommandLineParameterKind := .String

def CommandLineStringListParameter.kind (_ : CommandLineStringListParameter) :
    CommandLineParameterKind := .StringList

def CommandLineChoiceParameter.kind (_ : CommandLineChoiceParameter) :
    CommandLineParameterKind := .Choice

/-! ### `_setValue` (value injection): `this._value = data`, nothing else -/

def CommandLineFlagParameter._setValue (p : CommandLineFlagParameter)
    (data : JSValue) : CommandLineFlagParameter :=
  { p with value := some data }

def CommandLineIntegerParameter._setValue (p : CommandLineIntegerParameter)
    (data : JSValue) : CommandLineIntegerParameter :=
  { p with value := some data }

def CommandLineStringParameter._setValue (p : CommandLineStringParameter)
    (data : JSValue) : CommandLineStringParameter :=
  { p with value := some data }

def CommandLineStringListParameter._setValue (p : CommandLineStringListParameter)
    (data : JSValue) : CommandLineStringListParameter :=
  { p with value := some data }

def CommandLineChoiceParameter._setValue (p : CommandLineChoiceParameter)
    (data : JSValue) : CommandLineChoiceParameter :=
  { p with value := some data }

/-! ## Constructors -/

/-- The validated fields established by the `CommandLineParameter` base
constructor. -/
structure BaseFields where
  longName : String
  shortName : Option String
  description : String
deriving DecidableEq, Repr

/-- The `CommandLineParameter` base constructor: rejects a long name that
fails `_longNameRegExp`; then, only when `parameterShortName` is truthy
(supplied and non-empty), rejects it unless it matches `_shortNameRegExp`;
finally stores `longName`, `shortName` (as given, including `""`) and
`description`. -/
def constructBase (d : IBaseCommandLineDefinition) : Except CError BaseFields :=
  if !(longNameMatches d.parameterLongName) then
    .error (.invalidLongName d.parameterLongName)
  else
    match d.parameterShortName with
    | some s =>
      if s ≠ "" && !(shortNameMatches s) then
        .error (.invalidShortName s)
      else
        .ok ⟨d.parameterLongName, some s, d.description⟩
    | none => .ok ⟨d.parameterLongName, none, d.description⟩

/-- The argument-name validation performed by the
`CommandLineParameterWithArgument` constructor after `super(definition)`:
`argumentName === ''` raises the empty-name error; then
`argumentName.toUpperCase() !== argumentName` raises the case error — on an
`undefined` argument name this property access itself raises a `TypeError`;
then a match of `_invalidArgumentNameRegExp` raises the invalid-character
error naming the first offending character; otherwise the name is stored. -/
def validateArgumentName : Option String → Except CError (Option String)
  | none => .error (.typeError "Cannot read property toUpperCase of undefined")
  | some s =>
    if s = "" then .error .emptyArgumentName
    else if toUpperCase s ≠ s then .error (.argumentNameNotUpperCase s)
    else
      match firstInvalidArgNameChar s with
      | some c => .error (.argumentNameInvalidChar s c)
      | none => .ok (some s)

/-- Construction of `CommandLineFlagParameter`: the base validation only. -/
def constructFlag (d : IBaseCommandLineDefinition) :
    Except CError CommandLineFlagParameter :=
  match constructBase d with
  | .error e => .error e
  | .ok b => .ok ⟨b.longName, b.shortName, b.description, none⟩

/-- Construction of `CommandLineIntegerParameter`: base validation, then the
argument-name validation of `CommandLineParameterWithArgument`. -/
def constructInteger (d : IBaseCommandLineDefinitionWithArgument) :
    Except CError CommandLineIntegerParameter :=
  match constructBase d.toIBaseCommandLineDefinition with
  | .error e => .error e
  | .ok b =>
    match validateArgumentName d.argumentName with
    | .error e => .error e
    | .ok a => .ok ⟨b.longName, b.shortName, b.description, a, none⟩

/-- Construction of `CommandLineStringParameter`: same validation chain as
`constructInteger`. -/
def constructString (d : IBaseCommandLineDefinitionWithArgument) :
    Except CError CommandLineStringParameter :=
  match constructBase d.toIBaseCommandLineDefinition with
  | .error e => .error e
  | .ok b =>
    match validateArgumentName d.argumentName with
    | .error e => .error e
    | .ok a => .ok ⟨b.longName, b.shortName, b.description, a, none⟩

/-- Construction of `CommandLineStringListParameter`: same validation chain as
`constructInteger`. -/
def constructStringList (d : IBaseCommandLineDefinitionWithArgument) :
    Except CError CommandLineStringListParameter :=
  match constructBase d.toIBaseCommandLineDefinition with
  | .error e => .error e
  | .ok b =>
    match validateArgumentName d.argumentName with
    | .error e => .error e
    | .ok a => .ok ⟨b.longName, b.shortName, b.description, a, none⟩

/-- Construction of `CommandLineChoiceParameter`: `super(definition)` goes to the
`CommandLineParameter` base (not through the argument-name validation); then
`alternatives.length <= 1` is rejected; then a truthy (non-empty) default
value with `alternatives.indexOf(defaultValue) === -1` is rejected; then
`alternatives` and `defaultValue` are stored as given.  The definition's
`argumentName`, if any, is never read. -/
def constructChoice (d : ICommandLineChoiceDefinition) :
    Except CError CommandLineChoiceParameter :=
  match constructBase d.toIBaseCommandLineDefinition with
  | .error e => .error e
  | .ok b =>
    if d.alternatives.length ≤ 1 then
      .error .insufficientAlternatives
    else
      match d.defaultValue with
      | some dv =>
        if dv ≠ "" && !(d.alternatives.contains dv) then
          .error (.defaultValueNotInAlternatives dv d.alternatives)
        else
          .ok ⟨b.longName, b.shortName, b.description, d.alternatives, d.defaultValue, none⟩
      | none => .ok ⟨b.longName, b.shortName, b.description, d.alternatives, d.defaultValue, none⟩

/-! ## Spec-side grammars

The spec describes the long-name grammar declaratively: "one leading dash,
followed by one or more dash-delimited lower-case-alphanumeric segments", and
the short-name grammar as "exactly `-` followed by one letter or digit".
These definitions follow the spec's words; the refinement theorems relate
them to the regex matchers embedded from the source. -/

/-- A dash-delimited segment: non-empty and all lower-case-alphanumeric. -/
def GoodSeg (p : List Char) : Prop :=
  p ≠ [] ∧ ∀ c ∈ p, isLowerAlphaNum c = true

/-- The characters contributed by a list of segments, each preceded by its
delimiting dash. -/
def SegsJoin (parts : List (List Char)) : List Char :=
  (parts.map (fun p => '-' :: p)).flatten

/-- Declarative long-name grammar from the spec: one leading dash, then one or
more dash-delimited lower-case-alphanumeric segments. -/
def LongNameGrammar (s : String) : Prop :=
  ∃ parts : List (List Char), parts ≠ [] ∧ (∀ p ∈ parts, GoodSeg p) ∧
    s.data = '-' :: SegsJoin parts

/-- Declarative short-name grammar from the spec: exactly a dash followed by
one letter or digit. -/
def ShortNameGrammar (s : String) : Prop :=
  ∃ c, isShortNameChar c = true ∧ s.data = ['-', c]

theorem segsJoin_cons (p : List Char) (ps : List (List Char)) :
    SegsJoin (p :: ps) = '-' :: (p ++ SegsJoin ps) := by
  simp [SegsJoin]

theorem isLowerAlphaNum_dash : isLowerAlphaNum '-' = false := by decide

/-- Language of the scan `segsFrom`: it accepts exactly the lists that split
as an all-alphanumeric prefix (the rest of the current segment; non-empty when
the scan starts outside a segment) followed by zero or more dash-prefixed
segments. -/
theorem segsFrom_eq_true_iff (cs : List Char) : ∀ a : Bool,
    segsFrom a cs = true ↔
      ∃ pre parts, (a = true ∨ pre ≠ []) ∧ (∀ c ∈ pre, isLowerAlphaNum c = true) ∧
        (∀ p ∈ parts, GoodSeg p) ∧ cs = pre ++ SegsJoin parts := by
  induction cs with
  | nil =>
    intro a
    constructor
    · intro h
      exact ⟨[], [], Or.inl (by simpa [segsFrom] using h), by simp, by simp, by simp [SegsJoin]⟩
    · rintro ⟨pre, parts, hor, _, hparts, heq⟩
      have hpre : pre = [] := by
        cases pre with
        | nil => rfl
        | cons x xs => simp at heq
      subst hpre
      cases parts with
      | nil => simpa [segsFrom] using hor.resolve_right (by simp)
      | cons p ps => rw [segsJoin_cons] at heq; simp at heq
  | cons c cs ih =>
    intro a
    by_cases hc : isLowerAlphaNum c = true
    · rw [show segsFrom a (c :: cs) = segsFrom true cs from by simp [segsFrom, hc]]
      rw [ih true]
      constructor
      · rintro ⟨pre, parts, _, hpre, hparts, heq⟩
        refine ⟨c :: pre, parts, Or.inr (by simp), ?_, hparts, by simp [heq]⟩
        intro x hx
        rcases List.mem_cons.mp hx with h | h
        · subst h; exact hc
        · exact hpre x h
      · rintro ⟨pre, parts, hor, hpre, hparts, heq⟩
        cases pre with
        | nil =>
          simp only [List.nil_append] at heq
          cases parts with
          | nil => simp [SegsJoin] at heq
          | cons p ps =>
            rw [segsJoin_cons] at heq
            have : c = '-' := by simpa using congrArg (fun l => l.headI) heq
            rw [this] at hc
            exact absurd hc (by simp [isLowerAlphaNum_dash])
        | cons c' pre' =>
          simp only [List.cons_append, List.cons.injEq] at heq
          exact ⟨pre', parts, Or.inl rfl,
            fun x hx => hpre x (List.mem_cons_of_mem c' hx), hparts, heq.2⟩
    · by_cases hd : c = '-'
      · subst hd
        rw [show segsFrom a ('-' :: cs) = (a && segsFrom false cs) from by
          simp [segsFrom, hc]]
        rw [Bool.and_eq_true, ih false]
        constructor
        · rintro ⟨ha, pre, parts, hor, hpre, hparts, heq⟩
          refine ⟨[], pre :: parts, Or.inl ha, by simp, ?_, ?_⟩
          · intro p hp
            rcases List.mem_cons.mp hp with h | h
            · subst h; exact ⟨hor.resolve_left (by simp), hpre⟩
            · exact hparts p h
          · rw [List.nil_append, segsJoin_cons, heq]
        · rintro ⟨pre, parts, hor, hpre, hparts, heq⟩
          have hpre0 : pre = [] := by
            cases pre with
            | nil => rfl
            | cons x xs =>
              simp only [List.cons_append, List.cons.injEq] at heq
              have hx := hpre x (by simp)
              rw [← heq.1, isLowerAlphaNum_dash] at hx
              exact Bool.noConfusion hx
          subst hpre0
          simp only [List.nil_append] at heq
          cases parts with
          | nil => simp [SegsJoin] at heq
          | cons p ps =>
            rw [segsJoin_cons, List.cons.injEq] at heq
            refine ⟨hor.resolve_right (by simp), p, ps, Or.inr (hparts p (by simp)).1,
              (hparts p (by simp)).2, fun q hq => hparts q (List.mem_cons_of_mem p hq), heq.2⟩
      · rw [show segsFrom a (c :: cs) = false from by simp [segsFrom, hc, hd]]
        refine iff_of_false (by simp) ?_
        rintro ⟨pre, parts, hor, hpre, hparts, heq⟩
        cases pre with
        | nil =>
          simp only [List.nil_append] at heq
          cases parts with
          | nil => simp [SegsJoin] at heq
          | cons p ps =>
            rw [segsJoin_cons] at heq
            exact hd (by simpa using congrArg (fun l => l.headI) heq)
        | cons x xs =>
          simp only [List.cons_append, List.cons.injEq] at heq
          exact hc (heq.1 ▸ hpre x (by simp))

/-- The embedded `_longNameRegExp` matcher agrees with the spec's declarative
long-name grammar. -/
theorem longNameMatches_iff (s : String) :
    longNameMatches s = true ↔ LongNameGrammar s := by
  obtain ⟨data⟩ := s
  match data with
  | [] =>
    simp only [longNameMatches, LongNameGrammar]
    constructor
    · intro h; simp at h
    · rintro ⟨parts, _, _, heq⟩; simp at heq
  | [c] =>
    simp only [longNameMatches, LongNameGrammar]
    constructor
    · intro h; simp at h
    · rintro ⟨parts, hne, _, heq⟩
      cases parts with
      | nil => exact absurd rfl hne
      | cons p ps => rw [segsJoin_cons] at heq; simp at heq
  | c :: c' :: rest =>
    constructor
    · intro h
      have hcc : c = '-' ∧ c' = '-' := by
        by_contra hcontra
        have : longNameMatches ⟨c :: c' :: rest⟩ = false := by
          simp only [longNameMatches]
          match c, c', hcontra with
          | '-', '-', hcontra => exact absurd ⟨rfl, rfl⟩ hcontra
          | _, _, _ => first | rfl | (split <;> simp_all)
        rw [this] at h; exact Bool.false_ne_true h
      obtain ⟨h1, h2⟩ := hcc
      subst h1; subst h2
      have hseg : segsFrom false rest = true := h
      rw [segsFrom_eq_true_iff] at hseg
      obtain ⟨pre, parts, hor, hpre, hparts, heq⟩ := hseg
      refine ⟨pre :: parts, by simp, ?_, ?_⟩
      · intro p hp
        rcases List.mem_cons.mp hp with hh | hh
        · subst hh; exact ⟨hor.resolve_left (by simp), hpre⟩
        · exact hparts p hh
      · show '-' :: '-' :: rest = '-' :: SegsJoin (pre :: parts)
        rw [segsJoin_cons, heq]
    · rintro ⟨parts, hne, hparts, heq⟩
      cases parts with
      | nil => exact absurd rfl hne
      | cons p ps =>
        rw [segsJoin_cons] at heq
        simp only [List.cons.injEq] at heq
        obtain ⟨h1, h2, h3⟩ := heq
        subst h1; subst h2; subst h3
        show segsFrom false (p ++ SegsJoin ps) = true
        rw [segsFrom_eq_true_iff]
        exact ⟨p, ps, Or.inr (hparts p (by simp)).1, (hparts p (by simp)).2,
          fun q hq => hparts q (List.mem_cons_of_mem p hq), rfl⟩

/-- The embedded `_shortNameRegExp` matcher agrees with the spec's declarative
short-name grammar. -/
theorem shortNameMatches_iff (s : String) :
    shortNameMatches s = true ↔ ShortNameGrammar s := by
  constructor
  · intro h
    unfold shortNameMatches at h
    split at h
    · next c heq => exact ⟨c, h, heq⟩
    · exact absurd h (by simp)
  · rintro ⟨c, hc, heq⟩
    unfold shortNameMatches
    rw [heq]
    exact hc

/-- C4: the `_longNameRegExp` matcher embedded from the source coincides with
the spec's declarative grammar `-(-[a-z0-9]+)+`; every constructor rejects a
long name outside the grammar with an error carrying the offending string; and
when the long name is in the grammar, the base construction never raises the
long-name error. -/
theorem spec_C4_long_name_gate :
    (∀ s, longNameMatches s = true ↔ LongNameGrammar s)
  ∧ (∀ d : IBaseCommandLineDefinition, ¬ LongNameGrammar d.parameterLongName →
      constructBase d = .error (.invalidLongName d.parameterLongName)
      ∧ constructFlag d = .error (.invalidLongName d.parameterLongName))
  ∧ (∀ d : IBaseCommandLineDefinition, LongNameGrammar d.parameterLongName →
      ∀ e, constructBase d ≠ .error (.invalidLongName e))
  ∧ (∀ d : IBaseCommandLineDefinitionWithArgument, ¬ LongNameGrammar d.parameterLongName →
      constructInteger d = .error (.invalidLongName d.parameterLongName)
      ∧ constructString d = .error (.invalidLongName d.parameterLongName)
      ∧ constructStringList d = .error (.invalidLongName d.parameterLongName))
  ∧ (∀ d : ICommandLineChoiceDefinition, ¬ LongNameGrammar d.parameterLongName →
      constructChoice d = .error (.invalidLongName d.parameterLongName)) := by
  have hfalse : ∀ s, ¬ LongNameGrammar s → longNameMatches s = false := by
    intro s h
    cases hb : longNameMatches s with
    | false => rfl
    | true => exact absurd ((longNameMatches_iff s).mp hb) h
  refine ⟨longNameMatches_iff, ?_, ?_, ?_, ?_⟩
  · intro d h
    have hb := hfalse _ h
    exact ⟨by simp [constructBase, hb], by simp [constructFlag, constructBase, hb]⟩
  · intro d hg e
    have hb : longNameMatches d.parameterLongName = true := (longNameMatches_iff _).mpr hg
    simp only [constructBase, hb, Bool.not_true]
    cases d.parameterShortName with
    | none => simp
    | some s =>
      simp only [Bool.false_eq_true, if_false]
      split <;> simp
  · intro d h
    have hb := hfalse _ h
    exact ⟨by simp [constructInteger, constructBase, hb],
      by simp [constructString, constructBase, hb],
      by simp [constructStringList, constructBase, hb]⟩
  · intro d h
    have hb := hfalse _ h
    simp [constructChoice, constructBase, hb]

/-- Witness for C4 at concrete inputs: the spec's counterexample shapes
(empty, upper-case, single-dash, space-containing) all fail with the long-name
error, and a grammatical long name never triggers it. -/
theorem spec_C4_witness :
    constructBase ⟨"", none, "demo"⟩ = .error (.invalidLongName "")
  ∧ constructBase ⟨"--Bad", none, "demo"⟩ = .error (.invalidLongName "--Bad")
  ∧ constructBase ⟨"-bad", none, "demo"⟩ = .error (.invalidLongName "-bad")
  ∧ constructBase ⟨"--do thing", none, "demo"⟩ = .error (.invalidLongName "--do thing")
  ∧ constructInteger ⟨⟨"--Bad", none, "demo"⟩, some "N"⟩ = .error (.invalidLongName "--Bad")
  ∧ constructBase ⟨"--do-a-thing", none, "demo"⟩ ≠ .error (.invalidLongName "--do-a-thing") := by
  have hnot : ∀ s : String, longNameMatches s = false → ¬ LongNameGrammar s := by
    intro s hm hg
    rw [(longNameMatches_iff s).mpr hg] at hm
    exact Bool.noConfusion hm
  refine ⟨(spec_C4_long_name_gate.2.1 ⟨"", none, "demo"⟩ (hnot _ rfl)).1,
    (spec_C4_long_name_gate.2.1 ⟨"--Bad", none, "demo"⟩ (hnot _ rfl)).1,
    (spec_C4_long_name_gate.2.1 ⟨"-bad", none, "demo"⟩ (hnot _ rfl)).1,
    (spec_C4_long_name_gate.2.1 ⟨"--do thing", none, "demo"⟩ (hnot _ rfl)).1,
    (spec_C4_long_name_gate.2.2.2.1 ⟨⟨"--Bad", none, "demo"⟩, some "N"⟩ (hnot _ rfl)).1,
    spec_C4_long_name_gate.2.2.1 ⟨"--do-a-thing", none, "demo"⟩
      ((longNameMatches_iff _).mp rfl) "--do-a-thing"⟩

/-- C10: an explicitly empty short name is falsy in JavaScript, so the
short-name grammar check is skipped entirely, construction succeeds (with a
valid long name), and the empty string itself is stored as `shortName`. -/
theorem spec_C10_empty_short_name (d : IBaseCommandLineDefinition)
    (hs : d.parameterShortName = some "")
    (hl : longNameMatches d.parameterLongName = true) :
    constructBase d = .ok ⟨d.parameterLongName, some "", d.description⟩ := by
  simp [constructBase, hl, hs]

/-- Witness for C10: the empty short name does not match `_shortNameRegExp`,
yet construction succeeds and stores it. -/
theorem spec_C10_witness :
    constructBase ⟨"--thing", some "", "demo"⟩ = .ok ⟨"--thing", some "", "demo"⟩ :=
  spec_C10_empty_short_name ⟨"--thing", some "", "demo"⟩ rfl rfl

/-- C7 fails as stated: the empty string is a supplied short name that does not
match `-[a-zA-Z0-9]`, yet the short-name check passes (the truthy guard skips
it) and construction succeeds. -/
theorem spec_C7_counterexample :
    shortNameMatches "" = false
  ∧ constructBase ⟨"--thing", some "", "demo-text"⟩ = .ok ⟨"--thing", some "", "demo-text"⟩ :=
  ⟨rfl, rfl⟩

/-- C7 amended: for every *non-empty* supplied short name, the check passes
exactly when the name matches `_shortNameRegExp` (which coincides with the
spec's dash-plus-one-letter-or-digit grammar); otherwise construction fails
with an error carrying the offending short name. -/
theorem spec_C7_short_name_gate :
    (∀ s, shortNameMatches s = true ↔ ShortNameGrammar s)
  ∧ (∀ (d : IBaseCommandLineDefinition) (s : String),
      d.parameterShortName = some s → s ≠ "" →
      longNameMatches d.parameterLongName = true →
      (shortNameMatches s = true →
        constructBase d = .ok ⟨d.parameterLongName, some s, d.description⟩)
      ∧ (shortNameMatches s = false →
        constructBase d = .error (.invalidShortName s))) := by
  refine ⟨shortNameMatches_iff, ?_⟩
  intro d s hs hne hl
  constructor
  · intro hm
    simp [constructBase, hl, hs, hm]
  · intro hm
    simp [constructBase, hl, hs, hm, hne]

/-- Witness for C7's amended statement: `-a` passes, the two-character `-ab`
and the punctuation `-!` fail with the short-name error. -/
theorem spec_C7_witness :
    constructBase ⟨"--thing", some "-a", "demo"⟩ = .ok ⟨"--thing", some "-a", "demo"⟩
  ∧ constructBase ⟨"--thing", some "-ab", "demo"⟩ = .error (.invalidShortName "-ab")
  ∧ constructBase ⟨"--thing", some "-!", "demo"⟩ = .error (.invalidShortName "-!")
  ∧ (shortNameMatches "-a" = true ↔ ShortNameGrammar "-a") :=
  ⟨(spec_C7_short_name_gate.2 ⟨"--thing", some "-a", "demo"⟩ "-a" rfl (by decide) rfl).1 rfl,
   (spec_C7_short_name_gate.2 ⟨"--thing", some "-ab", "demo"⟩ "-ab" rfl (by decide) rfl).2 rfl,
   (spec_C7_short_name_gate.2 ⟨"--thing", some "-!", "demo"⟩ "-!" rfl (by decide) rfl).2 rfl,
   spec_C7_short_name_gate.1 "-a"⟩

/-- C2 is what the code should do, but the code crashes instead: when
`argumentName` is `undefined`, the guard `argumentName === ''` is false, and
the very next check dereferences `undefined.toUpperCase`, raising a
`TypeError` — even though the code's own empty-string error message says "For
the default name, specify undefined."  So constructing any argument-bearing
kind with an absent argument name fails rather than succeeding with an absent
`argumentName`. -/
theorem spec_C2_undefined_argument_name_crashes :
    validateArgumentName none =
      .error (.typeError "Cannot read property toUpperCase of undefined")
  ∧ constructInteger ⟨⟨"--max-count", none, "demo"⟩, none⟩ =
      .error (.typeError "Cannot read property toUpperCase of undefined")
  ∧ constructString ⟨⟨"--max-count", none, "demo"⟩, none⟩ =
      .error (.typeError "Cannot read property toUpperCase of undefined")
  ∧ constructStringList ⟨⟨"--max-count", none, "demo"⟩, none⟩ =
      .error (.typeError "Cannot read property toUpperCase of undefined") :=
  ⟨rfl, rfl, rfl, rfl⟩

/-- C6: with a valid base definition, Choice construction fails with the
insufficient-alternatives error exactly when the alternatives list has fewer
than two members. -/
theorem spec_C6_alternatives_gate (d : ICommandLineChoiceDefinition) (b : BaseFields)
    (hb : constructBase d.toIBaseCommandLineDefinition = .ok b) :
    (d.alternatives.length < 2 → constructChoice d = .error .insufficientAlternatives)
  ∧ (2 ≤ d.alternatives.length → constructChoice d ≠ .error .insufficientAlternatives) := by
  constructor
  · intro h
    simp [constructChoice, hb, show d.alternatives.length ≤ 1 from by omega]
  · intro h hcontra
    simp only [constructChoice, hb] at hcontra
    rw [if_neg (by omega)] at hcontra
    cases hdv : d.defaultValue with
    | none => rw [hdv] at hcontra; simp at hcontra
    | some dv =>
      rw [hdv] at hcontra
      split at hcontra <;> (try split at hcontra) <;> simp_all

/-- Witness for C6: two alternatives pass the check, one alternative fails. -/
theorem spec_C6_witness :
    constructChoice ⟨⟨"--flavor", none, "demo"⟩, ["a", "b"], none, none⟩ ≠
      .error .insufficientAlternatives
  ∧ constructChoice ⟨⟨"--flavor", none, "demo"⟩, ["a"], none, none⟩ =
      .error .insufficientAlternatives :=
  ⟨(spec_C6_alternatives_gate ⟨⟨"--flavor", none, "demo"⟩, ["a", "b"], none, none⟩
      ⟨"--flavor", none, "demo"⟩ rfl).2 (by decide),
   (spec_C6_alternatives_gate ⟨⟨"--flavor", none, "demo"⟩, ["a"], none, none⟩
      ⟨"--flavor", none, "demo"⟩ rfl).1 (by decide)⟩

/-- C3 fails as stated: an explicitly supplied *empty* default value is falsy,
so the membership check is skipped — here `""` is supplied, is not one of the
alternatives, and construction nevertheless succeeds and stores it. -/
theorem spec_C3_counterexample :
    ("" ∈ (["a", "b"] : List String) ↔ False)
  ∧ constructChoice ⟨⟨"--mode", none, "demo"⟩, ["a", "b"], some "", none⟩ =
      .ok ⟨"--mode", none, "demo", ["a", "b"], some "", none⟩ :=
  ⟨by simp, rfl⟩

/-- C3 amended: for a *non-empty* supplied default value that is not a member
of the alternatives, Choice construction (with a valid base and enough
alternatives) fails with an error carrying the invalid default and the full
alternatives list; a default that is a member passes the check, and
construction succeeds and stores it. -/
theorem spec_C3_default_value_gate (d : ICommandLineChoiceDefinition)
    (b : BaseFields) (dv : String)
    (hb : constructBase d.toIBaseCommandLineDefinition = .ok b)
    (halt : 1 < d.alternatives.length)
    (hdv : d.defaultValue = some dv) :
    (dv ≠ "" → dv ∉ d.alternatives →
      constructChoice d = .error (.defaultValueNotInAlternatives dv d.alternatives))
  ∧ (dv ∈ d.alternatives →
      constructChoice d = .ok ⟨b.longName, b.shortName, b.description,
        d.alternatives, some dv, none⟩) := by
  have hlen : ¬ d.alternatives.length ≤ 1 := by omega
  constructor
  · intro hne hm
    simp [constructChoice, hb, hlen, hdv, hne, hm]
  · intro hm
    simp [constructChoice, hb, hlen, hdv, hm]

/-- Witness for C3's amended statement: default `"c"` outside `["a","b"]`
fails listing both; default `"a"` succeeds and is stored. -/
theorem spec_C3_witness :
    constructChoice ⟨⟨"--mode", none, "demo"⟩, ["a", "b"], some "c", none⟩ =
      .error (.defaultValueNotInAlternatives "c" ["a", "b"])
  ∧ constructChoice ⟨⟨"--mode", none, "demo"⟩, ["a", "b"], some "a", none⟩ =
      .ok ⟨"--mode", none, "demo", ["a", "b"], some "a", none⟩ :=
  ⟨(spec_C3_default_value_gate ⟨⟨"--mode", none, "demo"⟩, ["a", "b"], some "c", none⟩
      ⟨"--mode", none, "demo"⟩ "c" rfl (by decide) rfl).1 (by decide) (by decide),
   (spec_C3_default_value_gate ⟨⟨"--mode", none, "demo"⟩, ["a", "b"], some "a", none⟩
      ⟨"--mode", none, "demo"⟩ "a" rfl (by decide) rfl).2 (by decide)⟩

/-- C1 fails as stated: `CommandLineChoiceParameter` extends
`CommandLineParameter` directly, so Choice construction never applies the
argument-name grammar — an argument name that the grammar rejects (as the
Integer constructor shows) is silently accepted by Choice construction, and
the constructed Choice parameter carries no `argumentName` field. -/
theorem spec_C1_counterexample :
    validateArgumentName (some "bad name!") =
      .error (.argumentNameNotUpperCase "bad name!")
  ∧ constructChoice ⟨⟨"--colors", none, "demo"⟩, ["red", "blue"], none, some "bad name!"⟩ =
      .ok ⟨"--colors", none, "demo", ["red", "blue"], none, none⟩
  ∧ constructInteger ⟨⟨"--colors", none, "demo"⟩, some "bad name!"⟩ =
      .error (.argumentNameNotUpperCase "bad name!") :=
  ⟨rfl, rfl, rfl⟩

/-- C1 amended: Choice is not argument-bearing — its construction is
independent of any supplied `argumentName` and applies no argument-name
validation; the argument-bearing kinds are Integer, String and StringList,
whose construction does apply the argument-name grammar after the base
checks. -/
theorem spec_C1_choice_not_argument_bearing :
    (∀ (d : ICommandLineChoiceDefinition) (a : Option String),
      constructChoice { d with argumentName := a } = constructChoice d)
  ∧ (∀ (d : IBaseCommandLineDefinitionWithArgument) (e : CError) (b : BaseFields),
      validateArgumentName d.argumentName = .error e →
      constructBase d.toIBaseCommandLineDefinition = .ok b →
      constructInteger d = .error e ∧ constructString d = .error e
      ∧ constructStringList d = .error e) := by
  constructor
  · intro d a
    cases d
    rfl
  · intro d e b ha hb
    exact ⟨by simp [constructInteger, hb, ha], by simp [constructString, hb, ha],
      by simp [constructStringList, hb, ha]⟩

/-- Witness for C1's amended statement: changing the (ignored) argument name
on a Choice definition changes nothing, while the Integer constructor rejects
an argument name that fails the grammar. -/
theorem spec_C1_witness :
    constructChoice ⟨⟨"--colors", none, "demo"⟩, ["red", "blue"], none, some "nope!"⟩ =
      constructChoice ⟨⟨"--colors", none, "demo"⟩, ["red", "blue"], none, none⟩
  ∧ constructInteger ⟨⟨"--colors", none, "demo"⟩, some "nope!"⟩ =
      .error (.argumentNameNotUpperCase "nope!") :=
  ⟨spec_C1_choice_not_argument_bearing.1
      ⟨⟨"--colors", none, "demo"⟩, ["red", "blue"], none, none⟩ (some "nope!"),
   (spec_C1_choice_not_argument_bearing.2 ⟨⟨"--colors", none, "demo"⟩, some "nope!"⟩
      (.argumentNameNotUpperCase "nope!") ⟨"--colors", none, "demo"⟩ rfl rfl).1⟩

/-- C8: `_setValue` stores the untyped payload verbatim (no type checking —
any payload shape is accepted by every kind), and the `value` accessor reads
back exactly the injected payload; in particular a StringList parameter
injected with a sequence of strings reads back that very sequence, order
preserved, and a Flag injected with `true` reads back `true`. -/
theorem spec_C8_value_injection :
    (∀ (p : CommandLineFlagParameter) (v : JSValue), (p._setValue v).value = some v)
  ∧ (∀ (p : CommandLineIntegerParameter) (v : JSValue), (p._setValue v).value = some v)
  ∧ (∀ (p : CommandLineStringParameter) (v : JSValue), (p._setValue v).value = some v)
  ∧ (∀ (p : CommandLineStringListParameter) (v : JSValue), (p._setValue v).value = some v)
  ∧ (∀ (p : CommandLineChoiceParameter) (v : JSValue), (p._setValue v).value = some v)
  ∧ (∀ (p : CommandLineStringListParameter) (l : List String),
      (p._setValue (.strList l)).value = some (.strList l))
  ∧ (∀ (p : CommandLineFlagParameter),
      (p._setValue (.bool true)).value = some (.bool true)) :=
  ⟨fun _ _ => rfl, fun _ _ => rfl, fun _ _ => rfl, fun _ _ => rfl, fun _ _ => rfl,
   fun _ _ => rfl, fun _ => rfl⟩

/-- C9: `_setValue` writes only the value slot — on every kind, `longName`,
`shortName`, `description` and the `kind` discriminant are unchanged, as are
`argumentName` on the argument-bearing kinds and `alternatives` /
`defaultValue` on Choice. -/
theorem spec_C9_setValue_frame :
    (∀ (p : CommandLineFlagParameter) (v : JSValue),
      (p._setValue v).longName = p.longName ∧ (p._setValue v).shortName = p.shortName
      ∧ (p._setValue v).description = p.description ∧ (p._setValue v).kind = p.kind)
  ∧ (∀ (p : CommandLineIntegerParameter) (v : JSValue),
      (p._setValue v).longName = p.longName ∧ (p._setValue v).shortName = p.shortName
      ∧ (p._setValue v).description = p.description
      ∧ (p._setValue v).argumentName = p.argumentName ∧ (p._setValue v).kind = p.kind)
  ∧ (∀ (p : CommandLineStringParameter) (v : JSValue),
      (p._setValue v).longName = p.longName ∧ (p._setValue v).shortName = p.shortName
      ∧ (p._setValue v).description = p.description
      ∧ (p._setValue v).argumentName = p.argumentName ∧ (p._setValue v).kind = p.kind)
  ∧ (∀ (p : CommandLineStringListParameter) (v : JSValue),
      (p._setValue v).longName = p.longName ∧ (p._setValue v).shortName = p.shortName
      ∧ (p._setValue v).description = p.description
      ∧ (p._setValue v).argumentName = p.argumentName ∧ (p._setValue v).kind = p.kind)
  ∧ (∀ (p : CommandLineChoiceParameter) (v : JSValue),
      (p._setValue v).longName = p.longName ∧ (p._setValue v).shortName = p.shortName
      ∧ (p._setValue v).description = p.description
      ∧ (p._setValue v).alternatives = p.alternatives
      ∧ (p._setValue v).defaultValue = p.defaultValue ∧ (p._setValue v).kind = p.kind) :=
  ⟨fun _ _ => ⟨rfl, rfl, rfl, rfl⟩, fun _ _ => ⟨rfl, rfl, rfl, rfl, rfl⟩,
   fun _ _ => ⟨rfl, rfl, rfl, rfl, rfl⟩, fun _ _ => ⟨rfl, rfl, rfl, rfl, rfl⟩,
   fun _ _ => ⟨rfl, rfl, rfl, rfl, rfl, rfl⟩⟩

end TsCommandLine
